import Mathlib

/-!
Verification of the organization/activity/building search engine
(`app/core/geo_utils.py`, `app/models/models.py`, `app/api/organizations.py`,
`app/api/activities.py`) against its natural-language specification.

Conventions of the embedding:
* Python floats are modelled as real numbers (`ℝ`).
* Recursive Python code with no termination guard (`Activity.get_all_descendants`,
  `build_activity_tree`'s nested materialization) is modelled with an explicit
  fuel parameter; `none` means the recursion exhausts every finite budget,
  i.e. the Python code does not terminate normally.
* `math.asin` raises a `ValueError` outside `[-1, 1]`; this is modelled by an
  `Option` result in `calculate_bounding_box`.
* Database-level filters (`building_id`, activity membership, `name ilike`)
  are modelled as order-preserving filters over the materialized snapshot.
-/

open Real

/-- The constant `R = 6371000`, Earth's radius in meters, from `geo_utils.py`. -/
def earthRadius : ℝ := 6371000

/-- Python `math.radians`: degrees to radians. -/
noncomputable def radians (x : ℝ) : ℝ := x * Real.pi / 180

/-- Python `math.degrees`: radians to degrees. -/
noncomputable def degrees (x : ℝ) : ℝ := x * 180 / Real.pi

/-- Python `math.atan2 y x` (two-argument arctangent, C library semantics on reals). -/
noncomputable def atan2 (y x : ℝ) : ℝ :=
  if 0 < x then Real.arctan (y / x)
  else if x < 0 then
    (if 0 ≤ y then Real.arctan (y / x) + Real.pi else Real.arctan (y / x) - Real.pi)
  else if 0 < y then Real.pi / 2
  else if y < 0 then -(Real.pi / 2)
  else 0

/-- The intermediate value `a` of `haversine_distance` in `geo_utils.py`. -/
noncomputable def havA (lat1 lon1 lat2 lon2 : ℝ) : ℝ :=
  Real.sin (radians (lat2 - lat1) / 2) ^ 2 +
    Real.cos (radians lat1) * Real.cos (radians lat2) *
      Real.sin (radians (lon2 - lon1) / 2) ^ 2

/-- Function `haversine_distance` from `geo_utils.py`:
`c = 2 * atan2(sqrt(a), sqrt(1 - a))`, result `R * c`. -/
noncomputable def haversine_distance (lat1 lon1 lat2 lon2 : ℝ) : ℝ :=
  earthRadius *
    (2 * atan2 (Real.sqrt (havA lat1 lon1 lat2 lon2))
      (Real.sqrt (1 - havA lat1 lon1 lat2 lon2)))

/-- Function `is_in_bounding_box` from `geo_utils.py`:
`lat_min <= lat <= lat_max and lon_min <= lon <= lon_max`. -/
def is_in_bounding_box (lat lon lat_min lat_max lon_min lon_max : ℝ) : Prop :=
  (lat_min ≤ lat ∧ lat ≤ lat_max) ∧ (lon_min ≤ lon ∧ lon ≤ lon_max)

/-- The result record of `calculate_bounding_box`. -/
structure BBox where
  lat_min : ℝ
  lat_max : ℝ
  lon_min : ℝ
  lon_max : ℝ

/-- Function `calculate_bounding_box` from `geo_utils.py`.  The longitude half-extent is
`asin(sin(radius_rad) / cos(lat_rad))`; `math.asin` raises `ValueError` when its
argument lies outside `[-1, 1]`, modelled here as `none`. -/
noncomputable def calculate_bounding_box (lat lon radius : ℝ) : Option BBox :=
  if 1 < |Real.sin (radius / earthRadius) / Real.cos (radians lat)| then none
  else some
    { lat_min := degrees (radians lat - radius / earthRadius)
      lat_max := degrees (radians lat + radius / earthRadius)
      lon_min := degrees (radians lon -
        Real.arcsin (Real.sin (radius / earthRadius) / Real.cos (radians lat)))
      lon_max := degrees (radians lon +
        Real.arcsin (Real.sin (radius / earthRadius) / Real.cos (radians lat))) }

/-- Box `outer` contains box `inner` (spec §8, monotonicity of `bounding_box`). -/
def boxContains (outer inner : BBox) : Prop :=
  outer.lat_min ≤ inner.lat_min ∧ inner.lat_max ≤ outer.lat_max ∧
    outer.lon_min ≤ inner.lon_min ∧ inner.lon_max ≤ outer.lon_max

/-- A row of the `activities` table (`models.py`). -/
structure ActivityRow where
  id : Nat
  name : String
  parent_id : Option Nat
  level : Nat
deriving DecidableEq

/-- The SQLAlchemy backref `children`: ids of the rows whose `parent_id` equals
`i`, in snapshot order. -/
def childIds (acts : List ActivityRow) (i : Nat) : List Nat :=
  (acts.filter (fun a => decide (a.parent_id = some i))).map (fun a => a.id)

/-- Sequential `Option`-valued map (left-to-right, failing as soon as an element
fails), used to model a Python loop of recursive calls. -/
def mapO (f : α → Option β) : List α → Option (List β)
  | [] => some []
  | x :: xs =>
    match f x, mapO f xs with
    | some y, some ys => some (y :: ys)
    | _, _ => none

/-- Method `Activity.get_all_descendants` (`models.py`): `descendants = [self.id]`,
then extend with each child's recursive result.  The Python code has no cycle
guard, so it is modelled with fuel: `none` means the recursion does not finish
within the given depth budget. -/
def descendantsFuel (acts : List ActivityRow) : Nat → Nat → Option (List Nat)
  | 0, _ => none
  | fuel + 1, i =>
    match mapO (fun c => descendantsFuel acts fuel c) (childIds acts i) with
    | none => none
    | some ls => some (i :: ls.flatten)

/-- Function `get_activity_with_descendants` (`organizations.py`): look the activity up
by id; if absent return `[]`, otherwise run `get_all_descendants`. -/
def get_activity_with_descendants (acts : List ActivityRow) (activity_id : Nat)
    (fuel : Nat) : Option (List Nat) :=
  match acts.find? (fun a => decide (a.id = activity_id)) with
  | none => some []
  | some a => descendantsFuel acts fuel a.id

/-- A row of the `buildings` table (`models.py`), restricted to the fields the
search reads. -/
structure BuildingRow where
  id : Nat
  address : String
  latitude : ℝ
  longitude : ℝ

/-- An organization, pre-joined with its building and its activity-id set, as
materialized by the query in `get_organizations`. -/
structure OrgRow where
  id : Nat
  name : String
  building_id : Nat
  phones : List String
  building : BuildingRow
  activities : List Nat

/-- The optional query parameters of `GET /organizations`. -/
structure QueryParams where
  building_id : Option Nat := none
  activity_id : Option Nat := none
  name : Option String := none
  lat : Option ℝ := none
  lon : Option ℝ := none
  radius : Option ℝ := none
  lat_min : Option ℝ := none
  lat_max : Option ℝ := none
  lon_min : Option ℝ := none
  lon_max : Option ℝ := none

/-- Substring test on character lists. -/
def containsSub (hay pat : List Char) : Bool :=
  hay.tails.any (fun t => pat.isPrefixOf t)

/-- The filter `Organization.name.ilike` with a wrapped pattern: case-insensitive substring match. -/
def ilikeMatch (pat s : String) : Bool :=
  containsSub s.toLower.data pat.toLower.data

/-- Stage for `if building_id is not None: filter(Organization.building_id == building_id)`. -/
def buildingStage (b? : Option Nat) (l : List OrgRow) : List OrgRow :=
  match b? with
  | none => l
  | some b => l.filter (fun o => decide (o.building_id = b))

/-- Stage for `if activity_id is not None:` — compute the descendant closure; the
filter is applied only when the returned id list is non-empty (`if activity_ids:`). -/
def activityStage (acts : List ActivityRow) (aid? : Option Nat) (fuel : Nat)
    (l : List OrgRow) : Option (List OrgRow) :=
  match aid? with
  | none => some l
  | some aid =>
    match get_activity_with_descendants acts aid fuel with
    | none => none
    | some ids =>
      if ids.isEmpty then some l
      else some (l.filter (fun o => o.activities.any (fun x => decide (x ∈ ids))))

/-- Stage for `if name:` — note the empty string is falsy in Python, so it deactivates
the filter. -/
def nameStage (n? : Option String) (l : List OrgRow) : List OrgRow :=
  match n? with
  | none => l
  | some n => if n = "" then l else l.filter (fun o => ilikeMatch n o.name)

open Classical in
/-- Stage for `if lat is not None and lon is not None and radius is not None:` keep the
organizations whose building is within `radius` meters of `(lat, lon)`. -/
noncomputable def radiusStage (lat? lon? radius? : Option ℝ) (l : List OrgRow) :
    List OrgRow :=
  match lat?, lon?, radius? with
  | some lat, some lon, some radius =>
    l.filter (fun o =>
      decide (haversine_distance lat lon o.building.latitude o.building.longitude
        ≤ radius))
  | _, _, _ => l

open Classical in
/-- Stage for `if lat_min is not None and ...`: keep the organizations whose building is
inside the bounding box. -/
noncomputable def boxStage (lat_min? lat_max? lon_min? lon_max? : Option ℝ)
    (l : List OrgRow) : List OrgRow :=
  match lat_min?, lat_max?, lon_min?, lon_max? with
  | some a, some b, some c, some d =>
    l.filter (fun o =>
      decide (is_in_bounding_box o.building.latitude o.building.longitude a b c d))
  | _, _, _, _ => l

/-- Endpoint `get_organizations` (`organizations.py`): the DB-level conjunction
(building, activity closure, name) followed by the two in-memory geo filters,
preserving snapshot order.  `none` propagates a non-terminating descendant
traversal. -/
noncomputable def searchOrgs (acts : List ActivityRow) (orgs : List OrgRow)
    (q : QueryParams) (fuel : Nat) : Option (List OrgRow) :=
  match activityStage acts q.activity_id fuel (buildingStage q.building_id orgs) with
  | none => none
  | some l =>
    some (boxStage q.lat_min q.lat_max q.lon_min q.lon_max
      (radiusStage q.lat q.lon q.radius (nameStage q.name l)))

/-- A node of the tree returned by `build_activity_tree` (`activities.py`). -/
inductive ActivityNode where
  | mk (id : Nat) (name : String) (parent_id : Option Nat) (level : Nat)
      (children : List ActivityNode)

/-- The id carried by a tree node. -/
def ActivityNode.nid : ActivityNode → Nat
  | .mk i _ _ _ _ => i

/-- All ids occurring in a tree node, root first. -/
def ActivityNode.flattenIds : ActivityNode → List Nat
  | .mk i _ _ _ cs => i :: (cs.attach.map (fun c => c.1.flattenIds)).flatten
decreasing_by
have := List.sizeOf_lt_of_mem c.2
simp only [ActivityNode.mk.sizeOf_spec]
omega

/-- All ids occurring in a forest. -/
def forestIds (f : List ActivityNode) : List Nat :=
  (f.map ActivityNode.flattenIds).flatten

/-- The rows appended (in snapshot order) to the children list of the node for
id `i` by the loop in `build_activity_tree`. -/
def childrenRows (acts : List ActivityRow) (i : Nat) : List ActivityRow :=
  acts.filter (fun a => decide (a.parent_id = some i))

/-- Materialization of one node of the forest that `build_activity_tree`
assembles by mutation: the node for a row carries the row's fields and the
recursively materialized children.  Fuel bounds the nesting depth. -/
def buildNode (acts : List ActivityRow) : Nat → ActivityRow → Option ActivityNode
  | 0, _ => none
  | fuel + 1, a =>
    match mapO (fun r => buildNode acts fuel r) (childrenRows acts a.id) with
    | none => none
    | some cs => some (.mk a.id a.name a.parent_id a.level cs)

/-- Function `build_activity_tree` (`activities.py`): the returned forest consists of
the nodes for the rows with `parent_id is None`, in snapshot order; a row whose
`parent_id` is present is appended to that parent's children; a row whose
`parent_id` refers to an id absent from the snapshot is appended nowhere. -/
def build_activity_tree (acts : List ActivityRow) : Option (List ActivityNode) :=
  mapO (fun r => buildNode acts (acts.length + 1) r)
    (acts.filter (fun a => decide (a.parent_id = none)))

/-- One parent-to-child edge chain in the taxonomy: `HChain acts (i :: js)`
says consecutive elements are linked by the `children` relation. -/
def HChain (acts : List ActivityRow) : List Nat → Prop
  | [] => True
  | [_] => True
  | i :: j :: rest => j ∈ childIds acts i ∧ HChain acts (j :: rest)

/-- Node `c` is reachable from `i` along child links. -/
def ReachesC (acts : List ActivityRow) (i c : Nat) : Prop :=
  ∃ p, HChain acts (i :: p) ∧ p.getLastD i = c

/-- There is a non-trivial cycle of child links through `c`. -/
def CycleAt (acts : List ActivityRow) (c : Nat) : Prop :=
  ∃ q, HChain acts (c :: (q ++ [c]))

/-! ### Lemmas about `mapO` -/

theorem mapO_cons_eq_some {f : α → Option β} {a : α} {l : List α} {r : List β} :
    mapO f (a :: l) = some r ↔
      ∃ y ys, f a = some y ∧ mapO f l = some ys ∧ r = y :: ys := by
  cases hfa : f a with
  | none => simp [mapO, hfa]
  | some y =>
    cases hm : mapO f l with
    | none => simp [mapO, hfa, hm]
    | some ys => simp [mapO, hfa, hm, eq_comm]

theorem mapO_mem_of_some {f : α → Option β} {l : List α} {r : List β}
    (h : mapO f l = some r) {x : α} (hx : x ∈ l) : ∃ y, f x = some y ∧ y ∈ r := by
  induction l generalizing r with
  | nil => cases hx
  | cons a as ih =>
    rcases mapO_cons_eq_some.1 h with ⟨y, ys, hy, hys, rfl⟩
    rcases List.mem_cons.1 hx with rfl | hx'
    · exact ⟨y, hy, List.mem_cons_self _ _⟩
    · rcases ih hys hx' with ⟨y', hy', hmem⟩
      exact ⟨y', hy', List.mem_cons_of_mem _ hmem⟩

theorem mapO_mem_rev {f : α → Option β} {l : List α} {r : List β}
    (h : mapO f l = some r) {y : β} (hy : y ∈ r) : ∃ x, x ∈ l ∧ f x = some y := by
  induction l generalizing r with
  | nil =>
    obtain rfl : r = [] := by simpa [mapO] using h.symm
    cases hy
  | cons a as ih =>
    rcases mapO_cons_eq_some.1 h with ⟨y', ys, hy', hys, rfl⟩
    rcases List.mem_cons.1 hy with rfl | hmem
    · exact ⟨a, List.mem_cons_self _ _, hy'⟩
    · rcases ih hys hmem with ⟨x, hx, hfx⟩
      exact ⟨x, List.mem_cons_of_mem _ hx, hfx⟩

theorem mapO_congr_some {f g : α → Option β} {l : List α} {r : List β}
    (hfg : ∀ x ∈ l, ∀ y, f x = some y → g x = some y)
    (h : mapO f l = some r) : mapO g l = some r := by
  induction l generalizing r with
  | nil => exact h
  | cons a as ih =>
    rcases mapO_cons_eq_some.1 h with ⟨y, ys, hy, hys, rfl⟩
    exact mapO_cons_eq_some.2 ⟨y, ys, hfg a (List.mem_cons_self _ _) y hy,
      ih (fun x hx => hfg x (List.mem_cons_of_mem _ hx)) hys, rfl⟩

theorem mapO_map_eq {f : α → Option β} {l : List α} {r : List β}
    {g : β → γ} {h : α → γ} (hgh : ∀ x ∈ l, ∀ y, f x = some y → g y = h x)
    (hm : mapO f l = some r) : r.map g = l.map h := by
  induction l generalizing r with
  | nil => cases hm; rfl
  | cons a as ih =>
    rcases mapO_cons_eq_some.1 hm with ⟨y, ys, hy, hys, rfl⟩
    simp only [List.map_cons]
    rw [hgh a (List.mem_cons_self _ _) y hy,
      ih (fun x hx => hgh x (List.mem_cons_of_mem _ hx)) hys]

/-! ### Lemmas about the descendant traversal -/

theorem descendantsFuel_succ_eq_some {acts : List ActivityRow} {fuel i : Nat}
    {l : List Nat} :
    descendantsFuel acts (fuel + 1) i = some l ↔
      ∃ ls, mapO (fun c => descendantsFuel acts fuel c) (childIds acts i) = some ls ∧
        l = i :: ls.flatten := by
  cases hm : mapO (fun c => descendantsFuel acts fuel c) (childIds acts i) with
  | none => simp [descendantsFuel, hm]
  | some ls => simp [descendantsFuel, hm, eq_comm]

theorem descendantsFuel_self_mem {acts : List ActivityRow} {f i : Nat} {l : List Nat}
    (h : descendantsFuel acts f i = some l) : i ∈ l := by
  cases f with
  | zero => simp [descendantsFuel] at h
  | succ f =>
    rcases descendantsFuel_succ_eq_some.1 h with ⟨ls, _, rfl⟩
    exact List.mem_cons_self _ _

theorem descendantsFuel_mono {acts : List ActivityRow} {f f' i : Nat} {l : List Nat}
    (hf : f ≤ f') (h : descendantsFuel acts f i = some l) :
    descendantsFuel acts f' i = some l := by
  induction f generalizing i l f' with
  | zero => simp [descendantsFuel] at h
  | succ f ih =>
    obtain ⟨f'', rfl⟩ : ∃ f'', f' = f'' + 1 := ⟨f' - 1, by omega⟩
    rcases descendantsFuel_succ_eq_some.1 h with ⟨ls, hm, rfl⟩
    exact descendantsFuel_succ_eq_some.2
      ⟨ls, mapO_congr_some (fun c _ lc hc => ih (by omega) hc) hm, rfl⟩

theorem descendantsFuel_subtree {acts : List ActivityRow} {f i j : Nat} {l : List Nat}
    (h : descendantsFuel acts f i = some l) (hj : j ∈ l) :
    ∃ l', descendantsFuel acts f j = some l' ∧ l' ⊆ l := by
  induction f generalizing i l with
  | zero => simp [descendantsFuel] at h
  | succ f ih =>
    rcases descendantsFuel_succ_eq_some.1 h with ⟨ls, hm, rfl⟩
    rcases List.mem_cons.1 hj with rfl | hj'
    · exact ⟨_, h, fun x hx => hx⟩
    · rcases List.mem_flatten.1 hj' with ⟨lc, hlc, hjlc⟩
      rcases mapO_mem_rev hm hlc with ⟨c, _, hcs⟩
      rcases ih hcs hjlc with ⟨l', hl', hsub⟩
      exact ⟨l', descendantsFuel_mono (Nat.le_succ f) hl',
        fun x hx => List.mem_cons_of_mem _ (List.mem_flatten_of_mem hlc (hsub hx))⟩

theorem childIds_mem_row {acts : List ActivityRow} {i j : Nat}
    (h : j ∈ childIds acts i) : ∃ r, r ∈ acts ∧ r.id = j := by
  rcases List.mem_map.1 h with ⟨r, hr, rfl⟩
  exact ⟨r, (List.mem_filter.1 hr).1, rfl⟩

theorem descendantsFuel_mem_row {acts : List ActivityRow} {f i j : Nat} {l : List Nat}
    (h : descendantsFuel acts f i = some l) (hj : j ∈ l) :
    j = i ∨ ∃ r, r ∈ acts ∧ r.id = j := by
  induction f generalizing i l with
  | zero => simp [descendantsFuel] at h
  | succ f ih =>
    rcases descendantsFuel_succ_eq_some.1 h with ⟨ls, hm, rfl⟩
    rcases List.mem_cons.1 hj with rfl | hj'
    · exact Or.inl rfl
    · rcases List.mem_flatten.1 hj' with ⟨lc, hlc, hjlc⟩
      rcases mapO_mem_rev hm hlc with ⟨c, hc, hcs⟩
      rcases ih hcs hjlc with rfl | hrow
      · exact Or.inr (childIds_mem_row hc)
      · exact Or.inr hrow

/-! ### Chains of child links, cycle pumping, and the fuel bound -/

theorem chain_bound {acts : List ActivityRow} {f i : Nat} {l : List Nat}
    (h : descendantsFuel acts f i = some l) :
    ∀ p, HChain acts (i :: p) → p.length < f := by
  induction f generalizing i l with
  | zero => simp [descendantsFuel] at h
  | succ f ih =>
    intro p hp
    cases p with
    | nil => simp
    | cons j p' =>
      simp only [HChain] at hp
      rcases descendantsFuel_succ_eq_some.1 h with ⟨ls, hm, rfl⟩
      rcases mapO_mem_of_some hm hp.1 with ⟨lj, hjl, _⟩
      have := ih hjl p' hp.2
      simpa using Nat.succ_lt_succ this

theorem chain_glue {acts : List ActivityRow} {c : Nat} (zs : List Nat)
    (hzs : HChain acts (c :: zs)) :
    ∀ p i, HChain acts (i :: p) → p.getLastD i = c →
      HChain acts (i :: (p ++ zs)) ∧
        (p ++ zs).getLastD i = zs.getLastD c := by
  intro p
  induction p with
  | nil =>
    intro i h1 h2
    subst h2
    exact ⟨hzs, rfl⟩
  | cons j p' ih =>
    intro i h1 h2
    simp only [HChain] at h1
    rw [List.getLastD_cons] at h2
    obtain ⟨hc, hl⟩ := ih j h1.2 h2
    refine ⟨?_, ?_⟩
    · show HChain acts (i :: j :: (p' ++ zs))
      exact ⟨h1.1, hc⟩
    · rw [List.cons_append, List.getLastD_cons]
      exact hl

theorem cycle_pump {acts : List ActivityRow} {i c : Nat}
    (hcyc : CycleAt acts c) (hreach : ReachesC acts i c) :
    ∀ n, ∃ p, HChain acts (i :: p) ∧ p.getLastD i = c ∧ n ≤ p.length := by
  obtain ⟨q, hq⟩ := hcyc
  obtain ⟨p0, hp0, hl0⟩ := hreach
  intro n
  induction n with
  | zero => exact ⟨p0, hp0, hl0, Nat.zero_le _⟩
  | succ n ih =>
    obtain ⟨p, hp, hlast, hlen⟩ := ih
    obtain ⟨hc', hl'⟩ := chain_glue (q ++ [c]) hq p i hp hlast
    refine ⟨p ++ (q ++ [c]), hc', ?_, ?_⟩
    · rw [hl', List.getLastD_concat]
    · simp only [List.length_append, List.length_cons]
      omega

/-! ### Claim C1 -/

/-- C1 (amended): `Activity.get_all_descendants` is unguarded recursion.  When a
cycle of parent links is reachable from the starting id, the traversal never
produces a result, for any recursion budget: the code diverges (in CPython it
dies with `RecursionError`) instead of terminating with a `MalformedHierarchy`
error — no such error condition exists in the code. -/
theorem C1_cycle_diverges {acts : List ActivityRow} {i c : Nat}
    (hreach : ReachesC acts i c) (hcyc : CycleAt acts c) :
    ∀ fuel, descendantsFuel acts fuel i = none := by
  intro fuel
  cases h : descendantsFuel acts fuel i with
  | none => rfl
  | some l =>
    obtain ⟨p, hp, _, hlen⟩ := cycle_pump hcyc hreach fuel
    exact absurd (chain_bound h p hp) (by omega)

/-- C1 witness: on the one-row snapshot whose activity is its own parent, the
hypotheses of `C1_cycle_diverges` hold concretely and the traversal started at
id 1 returns nothing at recursion budget 9. -/
theorem C1_cycle_diverges_witness :
    ReachesC [⟨1, "Cyclic", some 1, 1⟩] 1 1 ∧ CycleAt [⟨1, "Cyclic", some 1, 1⟩] 1 ∧
      descendantsFuel [⟨1, "Cyclic", some 1, 1⟩] 9 1 = none := by
  have h1 : ReachesC [⟨1, "Cyclic", some 1, 1⟩] 1 1 := ⟨[], trivial, rfl⟩
  have h2 : CycleAt [⟨1, "Cyclic", some 1, 1⟩] 1 := ⟨[], by exact ⟨by decide, trivial⟩⟩
  exact ⟨h1, h2, C1_cycle_diverges h1 h2 9⟩

/-- C1 counterexample to the claim as stated: on the snapshot with a cycle
reachable from id 1, the traversal does not terminate with any outcome at all —
there is no recursion budget under which `get_all_descendants` completes, hence
it neither returns nor raises a `MalformedHierarchy` error. -/
theorem C1_counterexample :
    ¬ ∃ fuel, (descendantsFuel [⟨1, "Cyclic", some 1, 1⟩] fuel 1).isSome := by
  have key : ∀ fuel, descendantsFuel [⟨1, "Cyclic", some 1, 1⟩] fuel 1 = none := by
    intro fuel
    induction fuel with
    | zero => rfl
    | succ f ih =>
      have hc : childIds [⟨1, "Cyclic", some 1, 1⟩] 1 = [1] := rfl
      simp [descendantsFuel, hc, mapO, ih]
  rintro ⟨fuel, h⟩
  rw [key fuel] at h
  simp at h

/-! ### The predicate each filter applies, and membership lemmas per stage -/

/-- The building predicate: active only when `building_id` was supplied. -/
def buildingPred : Option Nat → OrgRow → Prop
  | none, _ => True
  | some b, o => o.building_id = b

/-- The activity predicate applied once the closure `ids` is known: with a
non-empty closure the organization needs an activity inside it (the code skips
the filter when the closure is empty). -/
def activityPredIds (ids : List Nat) (o : OrgRow) : Prop :=
  ids ≠ [] → ∃ x ∈ o.activities, x ∈ ids

/-- The activity predicate: active only when `activity_id` was supplied. -/
def activityPred (acts : List ActivityRow) (fuel : Nat) : Option Nat → OrgRow → Prop
  | none, _ => True
  | some aid, o =>
    ∀ ids, get_activity_with_descendants acts aid fuel = some ids →
      activityPredIds ids o

/-- The name predicate: active only for a supplied, non-empty substring. -/
def namePred : Option String → OrgRow → Prop
  | none, _ => True
  | some n, o => n ≠ "" → ilikeMatch n o.name = true

/-- The radius predicate: active only when `lat`, `lon` and `radius` are all
supplied. -/
def radiusPred (lat? lon? radius? : Option ℝ) (o : OrgRow) : Prop :=
  match lat?, lon?, radius? with
  | some lat, some lon, some radius =>
    haversine_distance lat lon o.building.latitude o.building.longitude ≤ radius
  | _, _, _ => True

/-- The bounding-box predicate: active only when all four bounds are supplied. -/
def boxPred (a? b? c? d? : Option ℝ) (o : OrgRow) : Prop :=
  match a?, b?, c?, d? with
  | some a, some b, some c, some d =>
    is_in_bounding_box o.building.latitude o.building.longitude a b c d
  | _, _, _, _ => True

theorem mem_buildingStage {b? : Option Nat} {l : List OrgRow} {o : OrgRow} :
    o ∈ buildingStage b? l ↔ o ∈ l ∧ buildingPred b? o := by
  cases b? <;> simp [buildingStage, buildingPred, List.mem_filter]

theorem buildingStage_sublist {b? : Option Nat} {l : List OrgRow} :
    (buildingStage b? l).Sublist l := by
  cases b? with
  | none => exact List.Sublist.refl l
  | some b => exact List.filter_sublist l

theorem mem_nameStage {n? : Option String} {l : List OrgRow} {o : OrgRow} :
    o ∈ nameStage n? l ↔ o ∈ l ∧ namePred n? o := by
  cases n? with
  | none => simp [nameStage, namePred]
  | some n =>
    by_cases hn : n = ""
    · simp [nameStage, namePred, hn]
    · simp [nameStage, namePred, hn, List.mem_filter]

theorem nameStage_sublist {n? : Option String} {l : List OrgRow} :
    (nameStage n? l).Sublist l := by
  cases n? with
  | none => exact List.Sublist.refl l
  | some n =>
    by_cases hn : n = ""
    · simp [nameStage, hn]
    · simp only [nameStage, if_neg hn]
      exact List.filter_sublist l

theorem mem_radiusStage {lat? lon? radius? : Option ℝ} {l : List OrgRow} {o : OrgRow} :
    o ∈ radiusStage lat? lon? radius? l ↔ o ∈ l ∧ radiusPred lat? lon? radius? o := by
  rcases lat? with _ | la <;> rcases lon? with _ | lo <;> rcases radius? with _ | r <;>
    simp [radiusStage, radiusPred, List.mem_filter]

theorem radiusStage_sublist {lat? lon? radius? : Option ℝ} {l : List OrgRow} :
    (radiusStage lat? lon? radius? l).Sublist l := by
  rcases lat? with _ | la <;> rcases lon? with _ | lo <;> rcases radius? with _ | r <;>
    first
      | exact List.Sublist.refl l
      | exact List.filter_sublist l

theorem mem_boxStage {a? b? c? d? : Option ℝ} {l : List OrgRow} {o : OrgRow} :
    o ∈ boxStage a? b? c? d? l ↔ o ∈ l ∧ boxPred a? b? c? d? o := by
  rcases a? with _ | a <;> rcases b? with _ | b <;> rcases c? with _ | c <;>
    rcases d? with _ | d <;> simp [boxStage, boxPred, List.mem_filter]

theorem boxStage_sublist {a? b? c? d? : Option ℝ} {l : List OrgRow} :
    (boxStage a? b? c? d? l).Sublist l := by
  rcases a? with _ | a <;> rcases b? with _ | b <;> rcases c? with _ | c <;>
    rcases d? with _ | d <;>
    first
      | exact List.Sublist.refl l
      | exact List.filter_sublist l

theorem mem_activityStage {acts : List ActivityRow} {aid? : Option Nat} {fuel : Nat}
    {l l' : List OrgRow} (h : activityStage acts aid? fuel l = some l') {o : OrgRow} :
    o ∈ l' ↔ o ∈ l ∧ activityPred acts fuel aid? o := by
  cases aid? with
  | none =>
    simp only [activityStage] at h
    cases h
    simp [activityPred]
  | some aid =>
    simp only [activityStage] at h
    cases hg : get_activity_with_descendants acts aid fuel with
    | none => simp [hg] at h
    | some ids =>
      rw [hg] at h
      dsimp only at h
      by_cases hids : ids.isEmpty
      · rw [if_pos hids] at h
        cases h
        have hideq : ids = [] := List.isEmpty_iff.1 hids
        subst hideq
        simp only [activityPred, iff_self_and]
        intro _ ids' h'
        rw [hg] at h'
        cases h'
        intro hne
        exact absurd rfl hne
      · rw [if_neg hids] at h
        cases h
        rw [List.mem_filter]
        constructor
        · rintro ⟨hol, hany⟩
          refine ⟨hol, ?_⟩
          intro ids' h'
          rw [hg] at h'
          cases h'
          intro _
          simpa using hany
        · rintro ⟨hol, hpred⟩
          refine ⟨hol, ?_⟩
          have := hpred ids hg (by simpa using hids)
          simpa using this

theorem activityStage_sublist {acts : List ActivityRow} {aid? : Option Nat}
    {fuel : Nat} {l l' : List OrgRow} (h : activityStage acts aid? fuel l = some l') :
    l'.Sublist l := by
  cases aid? with
  | none =>
    simp only [activityStage] at h
    cases h
    exact List.Sublist.refl l
  | some aid =>
    simp only [activityStage] at h
    cases hg : get_activity_with_descendants acts aid fuel with
    | none => simp [hg] at h
    | some ids =>
      rw [hg] at h
      dsimp only at h
      by_cases hids : ids.isEmpty
      · rw [if_pos hids] at h
        cases h
        exact List.Sublist.refl l
      · rw [if_neg hids] at h
        cases h
        exact List.filter_sublist l

theorem searchOrgs_eq_some_iff {acts : List ActivityRow} {orgs : List OrgRow}
    {q : QueryParams} {fuel : Nat} {res : List OrgRow} :
    searchOrgs acts orgs q fuel = some res ↔
      ∃ l, activityStage acts q.activity_id fuel (buildingStage q.building_id orgs) =
          some l ∧
        res = boxStage q.lat_min q.lat_max q.lon_min q.lon_max
          (radiusStage q.lat q.lon q.radius (nameStage q.name l)) := by
  cases h : activityStage acts q.activity_id fuel (buildingStage q.building_id orgs) with
  | none => simp [searchOrgs, h]
  | some l => simp [searchOrgs, h, eq_comm]

theorem mem_searchOrgs {acts : List ActivityRow} {orgs : List OrgRow}
    {q : QueryParams} {fuel : Nat} {res : List OrgRow}
    (h : searchOrgs acts orgs q fuel = some res) (o : OrgRow) :
    o ∈ res ↔ o ∈ orgs ∧ buildingPred q.building_id o ∧
      activityPred acts fuel q.activity_id o ∧ namePred q.name o ∧
      radiusPred q.lat q.lon q.radius o ∧
      boxPred q.lat_min q.lat_max q.lon_min q.lon_max o := by
  rcases searchOrgs_eq_some_iff.1 h with ⟨l, hl, rfl⟩
  rw [mem_boxStage, mem_radiusStage, mem_nameStage, mem_activityStage hl,
    mem_buildingStage]
  tauto

theorem searchOrgs_sublist {acts : List ActivityRow} {orgs : List OrgRow}
    {q : QueryParams} {fuel : Nat} {res : List OrgRow}
    (h : searchOrgs acts orgs q fuel = some res) : res.Sublist orgs := by
  rcases searchOrgs_eq_some_iff.1 h with ⟨l, hl, rfl⟩
  exact ((boxStage_sublist.trans radiusStage_sublist).trans nameStage_sublist).trans
    ((activityStage_sublist hl).trans buildingStage_sublist)

/-! ### Concrete fixtures used by witnesses and counterexamples -/

/-- Taxonomy `Food(root) → Meat → Beef, Pork` (spec §8 scenario). -/
def actsFood : List ActivityRow :=
  [⟨1, "Food", none, 1⟩, ⟨2, "Meat", some 1, 2⟩, ⟨3, "Beef", some 2, 3⟩,
    ⟨4, "Pork", some 2, 3⟩]

/-- A building at the origin. -/
def bldgA : BuildingRow := ⟨1, "Building A", 0, 0⟩

/-- A second building. -/
def bldgB : BuildingRow := ⟨2, "Building B", 10, 10⟩

/-- An organization in building 1 tagged with activity `Beef` (id 3). -/
def orgBeef : OrgRow := ⟨1, "Beef Co", 1, [], bldgA, [3]⟩

/-- An organization in building 2 with an empty activity set. -/
def orgIdle : OrgRow := ⟨2, "Idle LLC", 2, [], bldgB, []⟩

/-! ### Claim C7 -/

/-- C7: when the search completes, its result is exactly the set of snapshot
organizations satisfying the conjunction (logical AND) of all active
predicates, and it is a sublist of the snapshot — the relative input order is
preserved, with no reordering by distance, name or id. -/
theorem C7_conjunction_and_order {acts : List ActivityRow} {orgs : List OrgRow}
    {q : QueryParams} {fuel : Nat} {res : List OrgRow}
    (h : searchOrgs acts orgs q fuel = some res) :
    res.Sublist orgs ∧
      ∀ o, o ∈ res ↔ o ∈ orgs ∧ buildingPred q.building_id o ∧
        activityPred acts fuel q.activity_id o ∧ namePred q.name o ∧
        radiusPred q.lat q.lon q.radius o ∧
        boxPred q.lat_min q.lat_max q.lon_min q.lon_max o :=
  ⟨searchOrgs_sublist h, fun o => mem_searchOrgs h o⟩

/-- C7 witness: a concrete building-filtered search keeps exactly the matching
organization, in order. -/
theorem C7_conjunction_and_order_witness :
    searchOrgs [] [orgBeef, orgIdle] { building_id := some 1 } 1 = some [orgBeef] ∧
      ([orgBeef].Sublist [orgBeef, orgIdle] ∧
        ∀ o, o ∈ [orgBeef] ↔ o ∈ [orgBeef, orgIdle] ∧ buildingPred (some 1) o ∧
          activityPred [] 1 none o ∧ namePred none o ∧
          radiusPred none none none o ∧ boxPred none none none none o) :=
  ⟨rfl, @C7_conjunction_and_order [] [orgBeef, orgIdle] { building_id := some 1 } 1
    [orgBeef] rfl⟩

/-! ### Claim C2 -/

/-- C2 (behavior of the code at the failing input): with an `activity_id`
absent from the snapshot the closure comes back empty, the `if activity_ids:`
guard skips the filter, and the search returns every organization — including
one whose activity set is empty.  The claim (and the repository's own test
`test_nonexistent_activity_returns_empty`) requires an empty result here. -/
theorem C2_unknown_activity_skips_filter :
    get_activity_with_descendants actsFood 99999 5 = some [] ∧
      searchOrgs actsFood [orgBeef, orgIdle] { activity_id := some 99999 } 5 =
        some [orgBeef, orgIdle] :=
  ⟨rfl, rfl⟩

/-! ### Claim C9 -/

/-- C9: if `d` lies in the descendant closure of `a`, then every organization
returned by a search filtered on `activity_id = d` is also returned by the
same search filtered on `activity_id = a` (superset across hierarchy levels). -/
theorem C9_descendant_search_superset {acts : List ActivityRow} {orgs : List OrgRow}
    {q : QueryParams} {fuel a d : Nat} {la : List Nat} {resA resD : List OrgRow}
    (hla : get_activity_with_descendants acts a fuel = some la)
    (hd : d ∈ la)
    (hA : searchOrgs acts orgs {q with activity_id := some a} fuel = some resA)
    (hD : searchOrgs acts orgs {q with activity_id := some d} fuel = some resD) :
    ∀ o ∈ resD, o ∈ resA := by
  rw [get_activity_with_descendants] at hla
  cases hfa : acts.find? (fun r => decide (r.id = a)) with
  | none =>
    rw [hfa] at hla
    cases hla
    cases hd
  | some rowA =>
    rw [hfa] at hla
    obtain ⟨ld, hld, hsub⟩ := descendantsFuel_subtree hla hd
    have hdrow : ∃ r, r ∈ acts ∧ r.id = d := by
      rcases descendantsFuel_mem_row hla hd with heq | hrow
      · exact ⟨rowA, List.mem_of_find?_eq_some hfa, heq.symm⟩
      · exact hrow
    have hfdS : (acts.find? (fun r => decide (r.id = d))).isSome := by
      rcases hdrow with ⟨r, hr, hrd⟩
      exact List.find?_isSome.2 ⟨r, hr, by simp [hrd]⟩
    obtain ⟨rowD, hfd⟩ := Option.isSome_iff_exists.1 hfdS
    have hrowDid : rowD.id = d := by
      have := List.find?_some hfd
      simpa using this
    have hgd : get_activity_with_descendants acts d fuel = some ld := by
      rw [get_activity_with_descendants, hfd]
      dsimp only
      rw [hrowDid]
      exact hld
    have hdld : d ∈ ld := descendantsFuel_self_mem hld
    have hgla : get_activity_with_descendants acts a fuel = some la := by
      rw [get_activity_with_descendants, hfa]
      exact hla
    intro o ho
    obtain ⟨ho1, hb, ha', hn, hr, hbx⟩ := (mem_searchOrgs hD o).1 ho
    refine (mem_searchOrgs hA o).2 ⟨ho1, hb, ?_, hn, hr, hbx⟩
    intro ids hids
    rw [hgla] at hids
    cases hids
    intro _
    have hpd : activityPredIds ld o := ha' ld hgd
    rcases hpd (by intro hc; rw [hc] at hdld; cases hdld) with ⟨x, hxo, hxld⟩
    exact ⟨x, hxo, hsub hxld⟩

/-- C9 witness: on the `Food → Meat → Beef, Pork` taxonomy, searching by
`Meat` (id 2) and by `Beef` (id 3) both return the `Beef`-tagged organization,
and the theorem applies with `d = 3 ∈ descendants(2) = [2, 3, 4]`. -/
theorem C9_descendant_search_superset_witness :
    get_activity_with_descendants actsFood 2 9 = some [2, 3, 4] ∧
      (3 ∈ ([2, 3, 4] : List Nat)) ∧
      searchOrgs actsFood [orgBeef, orgIdle] { activity_id := some 2 } 9 =
        some [orgBeef] ∧
      searchOrgs actsFood [orgBeef, orgIdle] { activity_id := some 3 } 9 =
        some [orgBeef] ∧
      ∀ o ∈ [orgBeef], o ∈ [orgBeef] :=
  ⟨rfl, by decide, rfl, rfl,
    @C9_descendant_search_superset actsFood [orgBeef, orgIdle] {} 9 2 3 [2, 3, 4]
      [orgBeef] [orgBeef] rfl (by decide) rfl rfl⟩

/-! ### Tree assembly: lemmas for `build_activity_tree` -/

theorem flattenIds_mk (i : Nat) (n : String) (p : Option Nat) (lv : Nat)
    (cs : List ActivityNode) :
    (ActivityNode.mk i n p lv cs).flattenIds =
      i :: (cs.map ActivityNode.flattenIds).flatten := by
  rw [ActivityNode.flattenIds]
  congr 1
  rw [List.attach_map_val cs ActivityNode.flattenIds]

theorem buildNode_succ_eq_some {acts : List ActivityRow} {fuel : Nat}
    {a : ActivityRow} {t : ActivityNode} :
    buildNode acts (fuel + 1) a = some t ↔
      ∃ cs, mapO (fun r => buildNode acts fuel r) (childrenRows acts a.id) = some cs ∧
        t = .mk a.id a.name a.parent_id a.level cs := by
  cases hm : mapO (fun r => buildNode acts fuel r) (childrenRows acts a.id) with
  | none => simp [buildNode, hm]
  | some cs => simp [buildNode, hm, eq_comm]

theorem buildNode_nid {acts : List ActivityRow} {fuel : Nat} {a : ActivityRow}
    {t : ActivityNode} (h : buildNode acts fuel a = some t) : t.nid = a.id := by
  cases fuel with
  | zero => simp [buildNode] at h
  | succ fuel =>
    rcases buildNode_succ_eq_some.1 h with ⟨cs, _, rfl⟩
    rfl

theorem childrenRows_mem {acts : List ActivityRow} {i : Nat} {r : ActivityRow}
    (h : r ∈ childrenRows acts i) : r ∈ acts ∧ r.parent_id = some i := by
  have := List.mem_filter.1 h
  exact ⟨this.1, by simpa using this.2⟩

theorem buildNode_flatten_row {acts : List ActivityRow} {fuel : Nat} :
    ∀ {a : ActivityRow} {t : ActivityNode}, a ∈ acts →
      buildNode acts fuel a = some t → ∀ j ∈ t.flattenIds,
        j = a.id ∨ ∃ r, r ∈ acts ∧ r.id = j ∧ ∃ p, p ∈ acts ∧
          r.parent_id = some p.id := by
  induction fuel with
  | zero => intro a t _ h; simp [buildNode] at h
  | succ fuel ih =>
    intro a t ha h j hj
    rcases buildNode_succ_eq_some.1 h with ⟨cs, hm, rfl⟩
    rw [flattenIds_mk] at hj
    rcases List.mem_cons.1 hj with rfl | hj'
    · exact Or.inl rfl
    · rcases List.mem_flatten.1 hj' with ⟨ids, hids, hin⟩
      rcases List.mem_map.1 hids with ⟨c, hc, rfl⟩
      rcases mapO_mem_rev hm hc with ⟨r, hr, hbn⟩
      obtain ⟨hrmem, hrpar⟩ := childrenRows_mem hr
      rcases ih hrmem hbn j hin with rfl | hrow
      · exact Or.inr ⟨r, hrmem, rfl, a, ha, hrpar⟩
      · exact Or.inr hrow

theorem nodup_id_inj {acts : List ActivityRow}
    (hnodup : (acts.map (fun a => a.id)).Nodup) {r s : ActivityRow}
    (hr : r ∈ acts) (hs : s ∈ acts) (h : r.id = s.id) : r = s :=
  List.inj_on_of_nodup_map hnodup hr hs h

/-! ### Claim C3 -/

/-- C3 counterexample to the claim as stated: a snapshot consisting of one
activity whose `parent_id` (99) refers to no activity in the snapshot produces
an empty forest — the orphan is dropped, it does not surface as a root, and it
does not appear exactly once. -/
theorem C3_counterexample :
    build_activity_tree [⟨1, "Orphan", some 99, 2⟩] = some [] := rfl

/-- C3 (amended): `build_activity_tree` emits as roots exactly the activities
whose `parent_id` is absent, in snapshot order; an activity whose `parent_id`
does not refer to an activity present in the snapshot is dropped from the
output entirely (it appears nowhere in the forest), rather than surfacing as a
root. -/
theorem C3_roots_and_orphans_dropped {acts : List ActivityRow}
    {f : List ActivityNode}
    (hnodup : (acts.map (fun a => a.id)).Nodup)
    (hbuild : build_activity_tree acts = some f) :
    f.map ActivityNode.nid =
        (acts.filter (fun a => decide (a.parent_id = none))).map (fun a => a.id) ∧
      ∀ r ∈ acts, ∀ p, r.parent_id = some p → (∀ s ∈ acts, s.id ≠ p) →
        r.id ∉ forestIds f := by
  constructor
  · exact mapO_map_eq (fun x _ y hy => buildNode_nid hy) hbuild
  · intro r hr p hp hnp hmem
    rcases List.mem_flatten.1 hmem with ⟨ids, hids, hin⟩
    rcases List.mem_map.1 hids with ⟨t, ht, rfl⟩
    rcases mapO_mem_rev hbuild ht with ⟨root, hroot, hbn⟩
    have hrootmem : root ∈ acts := (List.mem_filter.1 hroot).1
    have hrootnone : root.parent_id = none := by
      simpa using (List.mem_filter.1 hroot).2
    rcases buildNode_flatten_row hrootmem hbn r.id hin with heq | hrow
    · have : r = root := nodup_id_inj hnodup hr hrootmem heq
      rw [this, hrootnone] at hp
      cases hp
    · rcases hrow with ⟨r', hr', hid, p', hp', hpid⟩
      have : r' = r := nodup_id_inj hnodup hr' hr hid
      subst this
      rw [hp] at hpid
      exact hnp p' hp' (Option.some.inj hpid).symm

/-- C3 witness: on a three-row snapshot with one root, one proper child and one
orphan (parent 99 absent), the forest has exactly the root at top level and the
orphan's id appears nowhere. -/
theorem C3_roots_and_orphans_dropped_witness :
    build_activity_tree
        [⟨1, "A", none, 1⟩, ⟨2, "B", some 1, 2⟩, ⟨3, "C", some 99, 2⟩] =
      some [.mk 1 "A" none 1 [.mk 2 "B" (some 1) 2 []]] ∧
    ((([⟨1, "A", none, 1⟩, ⟨2, "B", some 1, 2⟩, ⟨3, "C", some 99, 2⟩] :
        List ActivityRow).map (fun a => a.id)).Nodup ∧
      ([ActivityNode.mk 1 "A" none 1 [.mk 2 "B" (some 1) 2 []]].map ActivityNode.nid =
          (([⟨1, "A", none, 1⟩, ⟨2, "B", some 1, 2⟩, ⟨3, "C", some 99, 2⟩] :
            List ActivityRow).filter (fun a => decide (a.parent_id = none))).map
            (fun a => a.id) ∧
        ∀ r ∈ ([⟨1, "A", none, 1⟩, ⟨2, "B", some 1, 2⟩, ⟨3, "C", some 99, 2⟩] :
            List ActivityRow), ∀ p, r.parent_id = some p →
          (∀ s ∈ ([⟨1, "A", none, 1⟩, ⟨2, "B", some 1, 2⟩, ⟨3, "C", some 99, 2⟩] :
            List ActivityRow), s.id ≠ p) →
          r.id ∉ forestIds [.mk 1 "A" none 1 [.mk 2 "B" (some 1) 2 []]])) :=
  ⟨rfl, by decide, C3_roots_and_orphans_dropped (by decide) rfl⟩

/-! ### Trigonometric groundwork for the geo filters -/

theorem sin_sq_half_eq (a : ℝ) : Real.sin (a / 2) ^ 2 = (1 - Real.cos a) / 2 := by
  have h := Real.sin_sq_eq_half_sub (a / 2)
  rw [show 2 * (a / 2) = a by ring] at h
  linarith

theorem radians_sub (x y : ℝ) : radians (x - y) = radians x - radians y := by
  simp only [radians]
  ring

theorem havA_identity (lat1 lon1 lat2 lon2 : ℝ) :
    2 * havA lat1 lon1 lat2 lon2 =
      1 - (Real.sin (radians lat1) * Real.sin (radians lat2) +
        Real.cos (radians lat1) * Real.cos (radians lat2) *
          Real.cos (radians (lon2 - lon1))) := by
  rw [havA, radians_sub, sin_sq_half_eq, sin_sq_half_eq, Real.cos_sub]
  ring

theorem dot_abs_le (x1 x2 d : ℝ) :
    |Real.sin x1 * Real.sin x2 + Real.cos x1 * Real.cos x2 * Real.cos d| ≤ 1 := by
  have h1 := Real.sin_sq_add_cos_sq x1
  have h2 := Real.sin_sq_add_cos_sq x2
  have h3 := Real.cos_le_one d
  have h4 := Real.neg_one_le_cos d
  rw [abs_le]
  constructor
  · nlinarith [mul_nonneg (by linarith : (0:ℝ) ≤ 1 - Real.cos d)
        (sq_nonneg (Real.cos x1 - Real.cos x2)),
      mul_nonneg (by linarith : (0:ℝ) ≤ 1 + Real.cos d)
        (sq_nonneg (Real.cos x1 + Real.cos x2)),
      sq_nonneg (Real.sin x1 + Real.sin x2)]
  · nlinarith [mul_nonneg (by linarith : (0:ℝ) ≤ 1 - Real.cos d)
        (sq_nonneg (Real.cos x1 + Real.cos x2)),
      mul_nonneg (by linarith : (0:ℝ) ≤ 1 + Real.cos d)
        (sq_nonneg (Real.cos x1 - Real.cos x2)),
      sq_nonneg (Real.sin x1 - Real.sin x2)]

theorem havA_nonneg (lat1 lon1 lat2 lon2 : ℝ) : 0 ≤ havA lat1 lon1 lat2 lon2 := by
  have h := havA_identity lat1 lon1 lat2 lon2
  have hd := dot_abs_le (radians lat1) (radians lat2) (radians (lon2 - lon1))
  rw [abs_le] at hd
  linarith

theorem havA_le_one (lat1 lon1 lat2 lon2 : ℝ) : havA lat1 lon1 lat2 lon2 ≤ 1 := by
  have h := havA_identity lat1 lon1 lat2 lon2
  have hd := dot_abs_le (radians lat1) (radians lat2) (radians (lon2 - lon1))
  rw [abs_le] at hd
  linarith

theorem atan2_nonneg {y x : ℝ} (hy : 0 ≤ y) (hx : 0 ≤ x) : 0 ≤ atan2 y x := by
  rw [atan2]
  by_cases h1 : 0 < x
  · rw [if_pos h1]
    have h0 : Real.arctan 0 ≤ Real.arctan (y / x) :=
      Real.arctan_strictMono.monotone (div_nonneg hy hx)
    rwa [Real.arctan_zero] at h0
  · rw [if_neg h1, if_neg (not_lt.2 hx)]
    by_cases h2 : 0 < y
    · rw [if_pos h2]
      have := Real.pi_pos
      linarith
    · rw [if_neg h2, if_neg (not_lt.2 hy)]

theorem atan2_eq_zero_iff_of_nonneg {y x : ℝ} (hy : 0 ≤ y) (hx : 0 ≤ x) :
    atan2 y x = 0 ↔ y = 0 := by
  rw [atan2]
  by_cases h1 : 0 < x
  · rw [if_pos h1, Real.arctan_eq_zero_iff, div_eq_zero_iff]
    constructor
    · rintro (h | h)
      · exact h
      · exact absurd h (by linarith)
    · exact fun h => Or.inl h
  · rw [if_neg h1, if_neg (not_lt.2 hx)]
    by_cases h2 : 0 < y
    · rw [if_pos h2]
      have := Real.pi_pos
      constructor
      · intro h
        linarith
      · intro h
        rw [h] at h2
        exact absurd h2 (lt_irrefl 0)
    · rw [if_neg h2, if_neg (not_lt.2 hy)]
      constructor
      · intro _
        linarith
      · intro _
        rfl

theorem haversine_nonneg (lat1 lon1 lat2 lon2 : ℝ) :
    0 ≤ haversine_distance lat1 lon1 lat2 lon2 := by
  rw [haversine_distance]
  have hE : (0:ℝ) ≤ earthRadius := by norm_num [earthRadius]
  have hnn := atan2_nonneg (Real.sqrt_nonneg (havA lat1 lon1 lat2 lon2))
    (Real.sqrt_nonneg (1 - havA lat1 lon1 lat2 lon2))
  nlinarith

theorem haversine_eq_zero_iff_havA {lat1 lon1 lat2 lon2 : ℝ} :
    haversine_distance lat1 lon1 lat2 lon2 = 0 ↔ havA lat1 lon1 lat2 lon2 = 0 := by
  rw [haversine_distance]
  constructor
  · intro h
    rcases mul_eq_zero.1 h with h | h
    · exact absurd h (by norm_num [earthRadius])
    · have h2 : atan2 (Real.sqrt (havA lat1 lon1 lat2 lon2))
          (Real.sqrt (1 - havA lat1 lon1 lat2 lon2)) = 0 := by linarith
      have h3 := (atan2_eq_zero_iff_of_nonneg (Real.sqrt_nonneg _)
        (Real.sqrt_nonneg _)).1 h2
      exact (Real.sqrt_eq_zero (havA_nonneg lat1 lon1 lat2 lon2)).1 h3
  · intro h
    rw [h, Real.sqrt_zero, sub_zero, Real.sqrt_one, atan2, if_pos one_pos]
    norm_num [Real.arctan_zero]

theorem cos_radians_pos {lat : ℝ} (h : |lat| < 90) : 0 < Real.cos (radians lat) := by
  have h1 : -90 < lat := (abs_lt.1 h).1
  have h2 : lat < 90 := (abs_lt.1 h).2
  apply Real.cos_pos_of_mem_Ioo
  constructor
  · show -(Real.pi / 2) < lat * Real.pi / 180
    nlinarith [Real.pi_pos]
  · show lat * Real.pi / 180 < Real.pi / 2
    nlinarith [Real.pi_pos]

theorem abs_radians_half_lt {u : ℝ} (h : |u| < 360) : |radians u / 2| < Real.pi := by
  have hπ := Real.pi_pos
  rw [radians, show u * Real.pi / 180 / 2 = u * (Real.pi / 360) by ring, abs_mul,
    abs_of_pos (by positivity : (0:ℝ) < Real.pi / 360)]
  calc |u| * (Real.pi / 360) < 360 * (Real.pi / 360) :=
        mul_lt_mul_of_pos_right h (by positivity)
    _ = Real.pi := by ring

theorem radians_half_eq_zero {u : ℝ} (h : radians u / 2 = 0) : u = 0 := by
  rw [radians] at h
  have hπ := Real.pi_ne_zero
  have : u * Real.pi = 0 := by linarith [h]
  rcases mul_eq_zero.1 this with h' | h'
  · exact h'
  · exact absurd h' hπ

theorem sin_radians_half_eq_zero {u : ℝ} (hu : |u| < 360)
    (h : Real.sin (radians u / 2) = 0) : u = 0 := by
  have hb := abs_lt.1 (abs_radians_half_lt hu)
  exact radians_half_eq_zero ((Real.sin_eq_zero_iff_of_lt_of_lt hb.1 hb.2).1 h)

theorem havA_eq_zero_iff {lat1 lon1 lat2 lon2 : ℝ}
    (h1 : |lat1| < 90) (h2 : |lat2| < 90) (h3 : |lon2 - lon1| < 360) :
    havA lat1 lon1 lat2 lon2 = 0 ↔ lat2 = lat1 ∧ lon2 = lon1 := by
  have hc1 := cos_radians_pos h1
  have hc2 := cos_radians_pos h2
  rw [havA]
  constructor
  · intro h
    have e1 : (0:ℝ) ≤ Real.sin (radians (lat2 - lat1) / 2) ^ 2 := sq_nonneg _
    have e2 : (0:ℝ) ≤ Real.cos (radians lat1) * Real.cos (radians lat2) *
        Real.sin (radians (lon2 - lon1) / 2) ^ 2 :=
      mul_nonneg (mul_pos hc1 hc2).le (sq_nonneg _)
    have ht1 : Real.sin (radians (lat2 - lat1) / 2) ^ 2 = 0 := by linarith
    have ht2 : Real.cos (radians lat1) * Real.cos (radians lat2) *
        Real.sin (radians (lon2 - lon1) / 2) ^ 2 = 0 := by linarith
    have hs1 : Real.sin (radians (lat2 - lat1) / 2) = 0 := by
      exact pow_eq_zero_iff (by norm_num) |>.1 ht1
    have hs2 : Real.sin (radians (lon2 - lon1) / 2) = 0 := by
      rcases mul_eq_zero.1 ht2 with h' | h'
      · exact absurd h' (mul_pos hc1 hc2).ne'
      · exact pow_eq_zero_iff (by norm_num) |>.1 h'
    have hlat : lat2 - lat1 = 0 := by
      apply sin_radians_half_eq_zero ?_ hs1
      have := abs_sub_abs_le_abs_sub lat2 lat1
      calc |lat2 - lat1| ≤ |lat2| + |lat1| := abs_sub lat2 lat1
        _ < 360 := by linarith
    have hlon : lon2 - lon1 = 0 := sin_radians_half_eq_zero h3 hs2
    constructor
    · linarith
    · linarith
  · rintro ⟨rfl, rfl⟩
    simp [radians]

theorem haversine_eq_zero_iff {lat1 lon1 lat2 lon2 : ℝ}
    (h1 : |lat1| < 90) (h2 : |lat2| < 90) (h3 : |lon2 - lon1| < 360) :
    haversine_distance lat1 lon1 lat2 lon2 = 0 ↔ lat2 = lat1 ∧ lon2 = lon1 :=
  haversine_eq_zero_iff_havA.trans (havA_eq_zero_iff h1 h2 h3)

/-! ### Claim C10 -/

theorem boxStage_nil {a? b? c? d? : Option ℝ} : boxStage a? b? c? d? [] = [] := by
  rcases a? with _ | a <;> rcases b? with _ | b <;> rcases c? with _ | c <;>
    rcases d? with _ | d <;> rfl

/-- C10: the haversine distance is non-negative for every input, so a search
with `lat`, `lon` and a strictly negative `radius` all supplied returns the
empty list (and raises no error). -/
theorem C10_negative_radius_empty {acts : List ActivityRow} {orgs : List OrgRow}
    {q : QueryParams} {fuel : Nat} {la lo r : ℝ} {res : List OrgRow}
    (hlat : q.lat = some la) (hlon : q.lon = some lo) (hrad : q.radius = some r)
    (hr : r < 0) (h : searchOrgs acts orgs q fuel = some res) :
    res = [] ∧ ∀ b1 b2 b3 b4 : ℝ, 0 ≤ haversine_distance b1 b2 b3 b4 := by
  refine ⟨?_, fun b1 b2 b3 b4 => haversine_nonneg b1 b2 b3 b4⟩
  rcases searchOrgs_eq_some_iff.1 h with ⟨l, _, rfl⟩
  rw [hlat, hlon, hrad]
  have hrs : radiusStage (some la) (some lo) (some r) (nameStage q.name l) = [] := by
    simp only [radiusStage]
    rw [List.filter_eq_nil_iff]
    intro o _
    simp only [decide_eq_true_eq]
    intro hle
    have := haversine_nonneg la lo o.building.latitude o.building.longitude
    linarith
  rw [hrs, boxStage_nil]

/-- C10 witness: a search with `radius = -5` over a snapshot completes with the
empty result, and the distance is non-negative in particular at `(0,0)`,`(1,0)`. -/
theorem C10_negative_radius_empty_witness :
    ((-5:ℝ) < 0) ∧
      searchOrgs [] [] { lat := some 0, lon := some 0, radius := some (-5) } 1 =
        some [] ∧
      (([] : List OrgRow) = [] ∧ ∀ b1 b2 b3 b4 : ℝ, 0 ≤ haversine_distance b1 b2 b3 b4) :=
  ⟨by norm_num, rfl,
    @C10_negative_radius_empty [] []
      { lat := some 0, lon := some 0, radius := some (-5) } 1 0 0 (-5) [] rfl rfl rfl
      (by norm_num) rfl⟩

/-! ### Claim C6 -/

/-- C6: point-in-box containment is the inclusive per-axis range check; a box
whose `lat_min` exceeds its `lat_max` (or `lon_min` exceeds `lon_max`) contains
no point, and a bounding-box search with such an inverted box returns no
organizations. -/
theorem C6_inverted_box_matches_nothing {la lo a b c d : ℝ}
    {acts : List ActivityRow} {orgs : List OrgRow} {q : QueryParams} {fuel : Nat}
    {res : List OrgRow}
    (hinv : b < a ∨ d < c)
    (hqa : q.lat_min = some a) (hqb : q.lat_max = some b)
    (hqc : q.lon_min = some c) (hqd : q.lon_max = some d)
    (h : searchOrgs acts orgs q fuel = some res) :
    (is_in_bounding_box la lo a b c d ↔
      ((a ≤ la ∧ la ≤ b) ∧ (c ≤ lo ∧ lo ≤ d))) ∧
      ¬ is_in_bounding_box la lo a b c d ∧ res = [] := by
  refine ⟨Iff.rfl, ?_, ?_⟩
  · rintro ⟨⟨h1, h2⟩, h3, h4⟩
    rcases hinv with hb | hd
    · linarith
    · linarith
  · rcases searchOrgs_eq_some_iff.1 h with ⟨l, _, rfl⟩
    rw [hqa, hqb, hqc, hqd]
    simp only [boxStage]
    rw [List.filter_eq_nil_iff]
    intro o _
    simp only [decide_eq_true_eq]
    rintro ⟨⟨h1, h2⟩, h3, h4⟩
    rcases hinv with hb | hd
    · linarith
    · linarith

/-- C6 witness: the spec's inverted box `lat_min=60, lat_max=55, lon_min=40,
lon_max=30` contains no point (e.g. not `(57, 35)`) and the search returns
nothing. -/
theorem C6_inverted_box_matches_nothing_witness :
    ((55:ℝ) < 60 ∨ (30:ℝ) < 40) ∧
      searchOrgs [] []
          { lat_min := some 60, lat_max := some 55, lon_min := some 40,
            lon_max := some 30 } 1 = some [] ∧
      ((is_in_bounding_box 57 35 60 55 40 30 ↔
          (((60:ℝ) ≤ 57 ∧ (57:ℝ) ≤ 55) ∧ ((40:ℝ) ≤ 35 ∧ (35:ℝ) ≤ 30))) ∧
        ¬ is_in_bounding_box 57 35 60 55 40 30 ∧ ([] : List OrgRow) = []) :=
  ⟨Or.inl (by norm_num), rfl,
    @C6_inverted_box_matches_nothing 57 35 60 55 40 30 [] []
      { lat_min := some 60, lat_max := some 55, lon_min := some 40,
        lon_max := some 30 } 1 []
      (Or.inl (by norm_num)) rfl rfl rfl rfl rfl⟩

/-! ### Claim C5 -/

/-- C5 (amended): the radius filter is active iff `lat`, `lon` and `radius` are
all supplied — any partially-specified set leaves the list untouched; radius
exactly `0` keeps precisely the organizations whose building is at haversine
distance `0` from the center, and for coordinates in the standard ranges
(latitudes strictly inside `(-90, 90)`, longitude difference strictly inside
`(-360, 360)`) distance `0` is equivalent to exact numeric equality of the
coordinates.  (At the poles, distance `0` also holds for different longitudes —
see the counterexample.) -/
theorem C5_radius_activation_and_zero_radius {la lo lab lob : ℝ} {l : List OrgRow}
    (h1 : |la| < 90) (h2 : |lab| < 90) (h3 : |lob - lo| < 360) :
    (∀ lat? lon? radius? : Option ℝ,
      lat? = none ∨ lon? = none ∨ radius? = none →
        radiusStage lat? lon? radius? l = l) ∧
    (∀ o, o ∈ radiusStage (some la) (some lo) (some 0) l ↔
      o ∈ l ∧ haversine_distance la lo o.building.latitude o.building.longitude = 0) ∧
    (haversine_distance la lo lab lob = 0 ↔ lab = la ∧ lob = lo) := by
  refine ⟨?_, ?_, haversine_eq_zero_iff h1 h2 h3⟩
  · rintro lat? lon? radius? (rfl | rfl | rfl)
    · rcases lon? with _ | y <;> rcases radius? with _ | r <;> rfl
    · rcases lat? with _ | x <;> rcases radius? with _ | r <;> rfl
    · rcases lat? with _ | x <;> rcases lon? with _ | y <;> rfl
  · intro o
    rw [mem_radiusStage]
    constructor
    · rintro ⟨ho, hp⟩
      have hd := haversine_nonneg la lo o.building.latitude o.building.longitude
      exact ⟨ho, le_antisymm hp hd⟩
    · rintro ⟨ho, hp⟩
      exact ⟨ho, le_of_eq hp⟩

/-- C5 witness: at center `(0, 0)`, the activation rules hold and a building at
`(1, 0)` is at non-zero distance iff its coordinates differ. -/
theorem C5_radius_activation_and_zero_radius_witness :
    (|(0:ℝ)| < 90) ∧ (|(1:ℝ)| < 90) ∧ (|(0:ℝ) - 0| < 360) ∧
      ((∀ lat? lon? radius? : Option ℝ,
          lat? = none ∨ lon? = none ∨ radius? = none →
            radiusStage lat? lon? radius? ([] : List OrgRow) = []) ∧
        (∀ o, o ∈ radiusStage (some 0) (some 0) (some 0) ([] : List OrgRow) ↔
          o ∈ ([] : List OrgRow) ∧
            haversine_distance 0 0 o.building.latitude o.building.longitude = 0) ∧
        (haversine_distance 0 0 1 0 = 0 ↔ (1:ℝ) = 0 ∧ (0:ℝ) = 0)) :=
  ⟨by norm_num, by norm_num, by norm_num,
    @C5_radius_activation_and_zero_radius 0 0 1 0 [] (by norm_num) (by norm_num)
      (by norm_num)⟩

/-- A building exactly at the north pole with longitude 90. -/
def bldgPole : BuildingRow := ⟨3, "North Pole", 90, 90⟩

/-- An organization whose building sits at `(90, 90)`. -/
def orgPole : OrgRow := ⟨3, "Pole Org", 3, [], bldgPole, []⟩

/-- C5 counterexample to the claim as stated: a radius-0 search centered at
`(90, 0)` matches the organization whose building is at `(90, 90)` — the
haversine distance between the two points is exactly `0` although the
coordinates are not numerically equal (longitudes `90 ≠ 0`). -/
theorem C5_counterexample :
    haversine_distance 90 0 90 90 = 0 ∧
      orgPole ∈ radiusStage (some 90) (some 0) (some 0) [orgPole] ∧
      orgPole.building.latitude = 90 ∧ orgPole.building.longitude = 90 ∧
      ¬ ((90:ℝ) = 90 ∧ (90:ℝ) = 0) := by
  have hrad90 : radians 90 = Real.pi / 2 := by
    rw [radians]
    ring
  have h0 : havA 90 0 90 90 = 0 := by
    rw [havA, show (90:ℝ) - 90 = 0 by norm_num, show (90:ℝ) - 0 = 90 by norm_num,
      hrad90, Real.cos_pi_div_two]
    simp [radians]
  have hdist : haversine_distance 90 0 90 90 = 0 := haversine_eq_zero_iff_havA.2 h0
  refine ⟨hdist, ?_, rfl, rfl, ?_⟩
  · rw [mem_radiusStage]
    exact ⟨List.mem_cons_self _ _, le_of_eq hdist⟩
  · rintro ⟨_, h⟩
    norm_num at h

/-! ### Claim C4 -/

theorem degrees_radians (x : ℝ) : degrees (radians x) = x := by
  rw [degrees, radians]
  have hπ := Real.pi_ne_zero
  field_simp

theorem degrees_mono {a b : ℝ} (h : a ≤ b) : degrees a ≤ degrees b := by
  rw [degrees, degrees]
  have hπ := Real.pi_pos
  gcongr

/-- C4 (amended): `calculate_bounding_box` does no clamping: when the asin
argument `sin(radius_rad)/cos(lat_rad)` exceeds 1 in absolute value (high
latitude with large radius) the `math.asin` domain failure propagates, and only
when the argument stays within `[-1, 1]` does it produce a box, which then
contains the center (for `|lat| < 90` and `0 ≤ radius ≤ R·π`). -/
theorem C4_no_clamping {lat lon radius : ℝ}
    (hlat : |lat| < 90) (hr0 : 0 ≤ radius)
    (hrπ : radius ≤ earthRadius * Real.pi) :
    (1 < |Real.sin (radius / earthRadius) / Real.cos (radians lat)| →
      calculate_bounding_box lat lon radius = none) ∧
    (|Real.sin (radius / earthRadius) / Real.cos (radians lat)| ≤ 1 →
      ∃ box, calculate_bounding_box lat lon radius = some box ∧
        box.lat_min ≤ lat ∧ lat ≤ box.lat_max ∧
        box.lon_min ≤ lon ∧ lon ≤ box.lon_max) := by
  have hR : (0:ℝ) < earthRadius := by norm_num [earthRadius]
  have hc := cos_radians_pos hlat
  constructor
  · intro hc'
    rw [calculate_bounding_box, if_pos hc']
  · intro hc'
    rw [calculate_bounding_box, if_neg (not_lt.2 hc')]
    have hdr : 0 ≤ radius / earthRadius := div_nonneg hr0 hR.le
    have hdrπ : radius / earthRadius ≤ Real.pi := by
      rw [div_le_iff₀ hR]
      linarith
    have hsin : 0 ≤ Real.sin (radius / earthRadius) :=
      Real.sin_nonneg_of_nonneg_of_le_pi hdr hdrπ
    have harc : 0 ≤ Real.arcsin
        (Real.sin (radius / earthRadius) / Real.cos (radians lat)) :=
      Real.arcsin_nonneg.2 (div_nonneg hsin hc.le)
    refine ⟨_, rfl, ?_, ?_, ?_, ?_⟩
    · calc degrees (radians lat - radius / earthRadius) ≤ degrees (radians lat) :=
            degrees_mono (by linarith)
        _ = lat := degrees_radians lat
    · calc lat = degrees (radians lat) := (degrees_radians lat).symm
        _ ≤ degrees (radians lat + radius / earthRadius) := degrees_mono (by linarith)
    · calc degrees (radians lon - Real.arcsin
              (Real.sin (radius / earthRadius) / Real.cos (radians lat)))
            ≤ degrees (radians lon) := degrees_mono (by linarith)
        _ = lon := degrees_radians lon
    · calc lon = degrees (radians lon) := (degrees_radians lon).symm
        _ ≤ degrees (radians lon + Real.arcsin
              (Real.sin (radius / earthRadius) / Real.cos (radians lat))) :=
            degrees_mono (by linarith)

/-- C4 witness: at the center `(0, 0)` with radius `0` the asin argument is `0`
and the function produces a box containing the center. -/
theorem C4_no_clamping_witness :
    (|(0:ℝ)| < 90) ∧ ((0:ℝ) ≤ 0) ∧ ((0:ℝ) ≤ earthRadius * Real.pi) ∧
      ((1 < |Real.sin ((0:ℝ) / earthRadius) / Real.cos (radians 0)| →
          calculate_bounding_box 0 0 0 = none) ∧
        (|Real.sin ((0:ℝ) / earthRadius) / Real.cos (radians 0)| ≤ 1 →
          ∃ box, calculate_bounding_box 0 0 0 = some box ∧
            box.lat_min ≤ 0 ∧ (0:ℝ) ≤ box.lat_max ∧
            box.lon_min ≤ 0 ∧ (0:ℝ) ≤ box.lon_max)) :=
  ⟨by norm_num, le_refl 0,
    mul_nonneg (by norm_num [earthRadius]) Real.pi_pos.le,
    @C4_no_clamping 0 0 0 (by norm_num) (le_refl 0)
      (mul_nonneg (by norm_num [earthRadius]) Real.pi_pos.le)⟩

/-- C4 counterexample to the claim as stated: at latitude 60 with radius
`R·π/2 ≈ 10 007 km` (non-negative), the asin argument is
`sin(π/2)/cos(π/3) = 2 > 1` and the code raises a `ValueError` instead of
producing a clamped box. -/
theorem C4_counterexample :
    (0:ℝ) ≤ 6371000 * (Real.pi / 2) ∧
      calculate_bounding_box 60 0 (6371000 * (Real.pi / 2)) = none := by
  constructor
  · positivity
  · have h1 : (6371000 * (Real.pi / 2)) / earthRadius = Real.pi / 2 := by
      rw [earthRadius]
      field_simp
      ring
    have h2 : radians 60 = Real.pi / 3 := by
      rw [radians]
      ring
    have hcond : 1 < |Real.sin ((6371000 * (Real.pi / 2)) / earthRadius) /
        Real.cos (radians 60)| := by
      rw [h1, h2, Real.sin_pi_div_two, Real.cos_pi_div_three]
      norm_num
    rw [calculate_bounding_box, if_pos hcond]

/-! ### Claim C8 -/

/-- C8 (amended): enlarging the radius never removes a previously matched
organization — universally, assuming nothing beyond `r1 ≤ r2`; and the bounding
box at the larger radius contains the box at the smaller radius for the same
center provided the radius angles stay within a quarter turn
(`radius ≤ R·π/2`, where `sin` is monotone) and the asin argument stays in
domain.  Beyond a quarter turn the longitude span shrinks again — see the
counterexample. -/
theorem C8_monotonicity {acts : List ActivityRow} {orgs : List OrgRow}
    {q : QueryParams} {fuel : Nat} {r1 r2 clat clon : ℝ} {res1 res2 : List OrgRow}
    (h12 : r1 ≤ r2)
    (h1 : searchOrgs acts orgs {q with radius := some r1} fuel = some res1)
    (h2 : searchOrgs acts orgs {q with radius := some r2} fuel = some res2) :
    (∀ o ∈ res1, o ∈ res2) ∧
      (0 ≤ r1 → |clat| < 90 → r2 ≤ earthRadius * (Real.pi / 2) →
        Real.sin (r2 / earthRadius) / Real.cos (radians clat) ≤ 1 →
        ∃ b1 b2, calculate_bounding_box clat clon r1 = some b1 ∧
          calculate_bounding_box clat clon r2 = some b2 ∧ boxContains b2 b1) := by
  constructor
  · intro o ho
    have hrp : radiusPred q.lat q.lon (some r1) o → radiusPred q.lat q.lon (some r2) o := by
      rcases q.lat with _ | x <;> rcases q.lon with _ | y <;>
        simp only [radiusPred] <;> intro h5 <;> try trivial
      linarith
    obtain ⟨g1, g2, g3, g4, g5, g6⟩ := (mem_searchOrgs h1 o).1 ho
    exact (mem_searchOrgs h2 o).2 ⟨g1, g2, g3, g4, hrp g5, g6⟩
  intro hr1 hlat hrq harg
  have hR : (0:ℝ) < earthRadius := by norm_num [earthRadius]
  have hc := cos_radians_pos hlat
  have hpi := Real.pi_pos
  have h01 : 0 ≤ r1 / earthRadius := div_nonneg hr1 hR.le
  have h02 : 0 ≤ r2 / earthRadius := div_nonneg (by linarith) hR.le
  have hq2 : r2 / earthRadius ≤ Real.pi / 2 := by
    rw [div_le_iff₀ hR]
    linarith
  have hdd : r1 / earthRadius ≤ r2 / earthRadius := by gcongr
  have hq1 : r1 / earthRadius ≤ Real.pi / 2 := le_trans hdd hq2
  have hsinmono : Real.sin (r1 / earthRadius) ≤ Real.sin (r2 / earthRadius) :=
    Real.strictMonoOn_sin.monotoneOn ⟨by linarith, hq1⟩ ⟨by linarith, hq2⟩ hdd
  have hs1 : 0 ≤ Real.sin (r1 / earthRadius) :=
    Real.sin_nonneg_of_nonneg_of_le_pi h01 (by linarith)
  have hs2 : 0 ≤ Real.sin (r2 / earthRadius) :=
    Real.sin_nonneg_of_nonneg_of_le_pi h02 (by linarith)
  have ha12 : Real.sin (r1 / earthRadius) / Real.cos (radians clat) ≤
      Real.sin (r2 / earthRadius) / Real.cos (radians clat) := by gcongr
  have ha1nn : 0 ≤ Real.sin (r1 / earthRadius) / Real.cos (radians clat) :=
    div_nonneg hs1 hc.le
  have ha2nn : 0 ≤ Real.sin (r2 / earthRadius) / Real.cos (radians clat) :=
    div_nonneg hs2 hc.le
  have habs1 : ¬ 1 < |Real.sin (r1 / earthRadius) / Real.cos (radians clat)| := by
    rw [not_lt, abs_of_nonneg ha1nn]
    exact le_trans ha12 harg
  have habs2 : ¬ 1 < |Real.sin (r2 / earthRadius) / Real.cos (radians clat)| := by
    rw [not_lt, abs_of_nonneg ha2nn]
    exact harg
  have harc : Real.arcsin (Real.sin (r1 / earthRadius) / Real.cos (radians clat)) ≤
      Real.arcsin (Real.sin (r2 / earthRadius) / Real.cos (radians clat)) :=
    Real.monotone_arcsin ha12
  refine ⟨⟨degrees (radians clat - r1 / earthRadius),
        degrees (radians clat + r1 / earthRadius),
        degrees (radians clon -
          Real.arcsin (Real.sin (r1 / earthRadius) / Real.cos (radians clat))),
        degrees (radians clon +
          Real.arcsin (Real.sin (r1 / earthRadius) / Real.cos (radians clat)))⟩,
      ⟨degrees (radians clat - r2 / earthRadius),
        degrees (radians clat + r2 / earthRadius),
        degrees (radians clon -
          Real.arcsin (Real.sin (r2 / earthRadius) / Real.cos (radians clat))),
        degrees (radians clon +
          Real.arcsin (Real.sin (r2 / earthRadius) / Real.cos (radians clat)))⟩,
      ?_, ?_, ?_⟩
  · rw [calculate_bounding_box, if_neg habs1]
  · rw [calculate_bounding_box, if_neg habs2]
  · exact ⟨degrees_mono (by linarith), degrees_mono (by linarith),
      degrees_mono (by linarith), degrees_mono (by linarith)⟩

/-- C8 witness: center `(0,0)`, radii `0` and `R·π/2`: the searches complete,
every organization matched at the smaller radius is matched at the larger, and
the larger box contains the smaller. -/
theorem C8_monotonicity_witness :
    ((0:ℝ) ≤ 0) ∧ ((0:ℝ) ≤ earthRadius * (Real.pi / 2)) ∧ (|(0:ℝ)| < 90) ∧
      (earthRadius * (Real.pi / 2) ≤ earthRadius * (Real.pi / 2)) ∧
      (Real.sin ((earthRadius * (Real.pi / 2)) / earthRadius) /
          Real.cos (radians 0) ≤ 1) ∧
      searchOrgs [] [] { lat := some 0, lon := some 0, radius := some 0 } 1 =
        some [] ∧
      searchOrgs [] []
          { lat := some 0, lon := some 0,
            radius := some (earthRadius * (Real.pi / 2)) } 1 = some [] ∧
      (∀ o ∈ ([] : List OrgRow), o ∈ ([] : List OrgRow)) ∧
      (∃ b1 b2, calculate_bounding_box 0 0 0 = some b1 ∧
        calculate_bounding_box 0 0 (earthRadius * (Real.pi / 2)) = some b2 ∧
        boxContains b2 b1) := by
  have hRne : (earthRadius : ℝ) ≠ 0 := by norm_num [earthRadius]
  have hd1 : (earthRadius * (Real.pi / 2)) / earthRadius = Real.pi / 2 := by
    field_simp
    ring
  have hr0 : radians 0 = 0 := by
    rw [radians]
    ring
  have harg : Real.sin ((earthRadius * (Real.pi / 2)) / earthRadius) /
      Real.cos (radians 0) ≤ 1 := by
    rw [hd1, Real.sin_pi_div_two, hr0, Real.cos_zero]
    norm_num
  have hR0 : (0:ℝ) ≤ earthRadius * (Real.pi / 2) :=
    mul_nonneg (by norm_num [earthRadius]) (by positivity)
  have hthm := @C8_monotonicity [] [] { lat := some 0, lon := some 0 } 1 0
    (earthRadius * (Real.pi / 2)) 0 0 [] [] hR0 rfl rfl
  exact ⟨le_refl 0, hR0, by norm_num, le_refl _, harg, rfl, rfl,
    hthm.1, hthm.2 (le_refl 0) (by norm_num) (le_refl _) harg⟩

/-- C8 counterexample to the claim as stated: at center `(0,0)`, the box for
radius `R·π` (half the circumference) has longitude span collapsed to a point
(`asin(sin(π)) = 0`), so it does not contain the box for the smaller radius
`R·π/2`, whose longitude span is `±90°`. -/
theorem C8_counterexample :
    (0:ℝ) ≤ earthRadius * (Real.pi / 2) ∧
      earthRadius * (Real.pi / 2) ≤ earthRadius * Real.pi ∧
      calculate_bounding_box 0 0 (earthRadius * (Real.pi / 2)) =
        some ⟨-90, 90, -90, 90⟩ ∧
      calculate_bounding_box 0 0 (earthRadius * Real.pi) =
        some ⟨-180, 180, 0, 0⟩ ∧
      ¬ boxContains ⟨-180, 180, 0, 0⟩ ⟨-90, 90, -90, 90⟩ := by
  have hpi := Real.pi_pos
  have hRne : (earthRadius : ℝ) ≠ 0 := by norm_num [earthRadius]
  have hπne := Real.pi_ne_zero
  have hr0 : radians 0 = 0 := by
    rw [radians]
    ring
  have hd1 : (earthRadius * (Real.pi / 2)) / earthRadius = Real.pi / 2 := by
    field_simp
    ring
  have hd2 : (earthRadius * Real.pi) / earthRadius = Real.pi := by
    field_simp
  refine ⟨mul_nonneg (by norm_num [earthRadius]) (by positivity),
    by nlinarith [mul_pos (by norm_num [earthRadius] : (0:ℝ) < earthRadius) hpi], ?_, ?_, ?_⟩
  · rw [calculate_bounding_box, hd1, hr0, Real.cos_zero, Real.sin_pi_div_two]
    rw [show (1:ℝ) / 1 = 1 by norm_num]
    rw [if_neg (by norm_num)]
    rw [Real.arcsin_one]
    have e1 : degrees (0 - Real.pi / 2) = (-90 : ℝ) := by
      rw [degrees]
      field_simp
      ring
    have e2 : degrees (0 + Real.pi / 2) = (90 : ℝ) := by
      rw [degrees]
      field_simp
      ring
    rw [e1, e2]
  · rw [calculate_bounding_box, hd2, hr0, Real.cos_zero, Real.sin_pi]
    rw [show (0:ℝ) / 1 = 0 by norm_num]
    rw [if_neg (by norm_num)]
    rw [Real.arcsin_zero]
    have e3 : degrees (0 - Real.pi) = (-180 : ℝ) := by
      rw [degrees]
      field_simp
      ring
    have e4 : degrees (0 + Real.pi) = (180 : ℝ) := by
      rw [degrees]
      field_simp
    have e5 : degrees (0 - 0) = (0 : ℝ) := by
      rw [degrees]
      norm_num
    have e6 : degrees (0 + 0) = (0 : ℝ) := by
      rw [degrees]
      norm_num
    rw [e3, e4, e5, e6]
  · intro hcon
    rcases hcon with ⟨-, -, h3, -⟩
    norm_num at h3
